import Mathlib

/-!
Verification of the memo-esp transcription server core
(`src/transcription_server.py`) over a shallow embedding of its data model
and operations: the per-device recording state machine with the keyboard
bulk toggle, the device liveness registry with lazy TTL eviction, the
audio ingestion queue, the audio quality analyzer, the DC offset
corrector, the JSON sanitizer and the quality scorer.

Modelling conventions: Python dictionaries become association lists with
unique keys, byte strings become lists of naturals below 256, timestamps
and floating point values become exact rationals (plus an explicit
not-finite marker where NaN and infinities matter), and Python exceptions
become an explicit crash value.
-/

namespace MemoEsp

/-! ## Python float values

Quality metrics arrive as Python floats parsed from HTTP headers; the JSON
sanitizer cares exactly about whether such a value is NaN or an infinity.
A float is modelled as an exact rational or one of the three non-finite
values. -/

/-- Model of a Python float: exact rational value or a non-finite value. -/
inductive PyFloat where
  | nan : PyFloat
  | inf : PyFloat
  | neginf : PyFloat
  | val : ℚ → PyFloat
deriving DecidableEq

/-- Python `math.isnan(f) or math.isinf(f)` is the negation of this. -/
def PyFloat.isFinite : PyFloat → Bool
  | .val _ => true
  | _ => false

/-- Python comparison `f < c` against a finite constant: NaN compares
false, `-inf < c` is true, `inf < c` is false. -/
def PyFloat.ltQ : PyFloat → ℚ → Bool
  | .nan, _ => false
  | .inf, _ => false
  | .neginf, _ => true
  | .val q, c => decide (q < c)

/-- Python comparison `f > c` against a finite constant. -/
def PyFloat.gtQ : PyFloat → ℚ → Bool
  | .nan, _ => false
  | .inf, _ => true
  | .neginf, _ => false
  | .val q, c => decide (q > c)

/-- Python `round(x, 1)`. Mathlib `round` rounds half up while Python
rounds half to even; no use in this development sits on a tie. -/
def round1 (q : ℚ) : ℚ := ((round (10 * q) : ℤ) : ℚ) / 10

/-! ## Recording state machine

The global dict `recording_state : device_id → bool` (line 36), mutated
under `recording_lock`. -/

/-- Python dict `recording_state`, modelled as an association list. -/
abbrev RecState := List (String × Bool)

/-- Dict lookup `recording_state.get(d)`. -/
def lookupRec (d : String) : RecState → Option Bool
  | [] => none
  | (k, v) :: tl => if k = d then some v else lookupRec d tl

/-- Python `recording_state.get(did, False)` (line 1217). -/
def getRec (d : String) (st : RecState) : Bool := (lookupRec d st).getD false

/-- Dict assignment `recording_state[d] = b`: replace the binding if the
key is present, otherwise append it. -/
def setRec (d : String) (b : Bool) : RecState → RecState
  | [] => [(d, b)]
  | (k, v) :: tl => if k = d then (k, b) :: tl else (k, v) :: setRec d b tl

/-- Body of the `for device_id in device_ids` loop of `keyboard_listener`
(lines 1221–1227): set every listed device to the shared new state and
emit one `device_status` broadcast per device, in list order. Returns the
final recording state and the emitted events `(device_id, recording)`. -/
def toggleLoop (ns : Bool) : List String → RecState → RecState × List (String × Bool)
  | [], st => (st, [])
  | d :: rest, st =>
    let stepped := toggleLoop ns rest (setRec d ns st)
    (stepped.1, (d, ns) :: stepped.2)

/-- Bulk toggle driven by the SPACE key (`keyboard_listener`, lines
1211–1227): `device_ids` is the list of keys of `active_devices`,
`any_recording` is the OR of `recording_state.get(did, False)` over them,
and every listed device is set to `not any_recording`. -/
def bulkToggle (deviceIds : List String) (st : RecState) : RecState × List (String × Bool) :=
  let anyRecording := deviceIds.any (fun did => getRec did st)
  toggleLoop (!anyRecording) deviceIds st

theorem lookupRec_setRec_self (d : String) (b : Bool) (st : RecState) :
    lookupRec d (setRec d b st) = some b := by
  induction st with
  | nil => simp [setRec, lookupRec]
  | cons kv tl ih =>
    obtain ⟨k, v⟩ := kv
    by_cases h : k = d <;> simp [setRec, lookupRec, h, ih]

theorem lookupRec_setRec_ne (x d : String) (b : Bool) (st : RecState) (hx : x ≠ d) :
    lookupRec x (setRec d b st) = lookupRec x st := by
  induction st with
  | nil => simp [setRec, lookupRec, Ne.symm hx]
  | cons kv tl ih =>
    obtain ⟨k, v⟩ := kv
    by_cases h : k = d
    · subst h
      simp [setRec, lookupRec, Ne.symm hx]
    · simp [setRec, lookupRec, h, ih]

theorem toggleLoop_events (ns : Bool) (ids : List String) (st : RecState) :
    (toggleLoop ns ids st).2 = ids.map (fun d => (d, ns)) := by
  induction ids generalizing st with
  | nil => rfl
  | cons a tl ih => simp [toggleLoop, ih]

theorem toggleLoop_state_not_mem (ns : Bool) (ids : List String) (st : RecState)
    (d : String) (hd : d ∉ ids) :
    lookupRec d (toggleLoop ns ids st).1 = lookupRec d st := by
  induction ids generalizing st with
  | nil => rfl
  | cons a tl ih =>
    have hda : d ≠ a := fun h => hd (h ▸ List.mem_cons_self a tl)
    have hdtl : d ∉ tl := fun h => hd (List.mem_cons_of_mem a h)
    simp [toggleLoop, ih _ hdtl, lookupRec_setRec_ne d a ns st hda]

theorem toggleLoop_state_mem (ns : Bool) (ids : List String) (st : RecState)
    (d : String) (hd : d ∈ ids) :
    lookupRec d (toggleLoop ns ids st).1 = some ns := by
  induction ids generalizing st with
  | nil => cases hd
  | cons a tl ih =>
    by_cases h : d ∈ tl
    · simp [toggleLoop, ih _ h]
    · have hda : d = a := by
        rcases List.mem_cons.mp hd with h1 | h2
        · exact h1
        · exact absurd h2 h
      subst hda
      simp [toggleLoop, toggleLoop_state_not_mem ns tl _ d h, lookupRec_setRec_self]

/-- C1: the bulk toggle computes `any_recording` as the OR of the
recording states of the registered devices, sets every registered device
to `not any_recording`, and emits exactly one broadcast event per
registered device carrying that new value, in registration order. -/
theorem bulkToggle_or_not_broadcast (ids : List String) (st : RecState) :
    (∀ d ∈ ids,
      lookupRec d (bulkToggle ids st).1 = some (!ids.any (fun did => getRec did st))) ∧
    (bulkToggle ids st).2 =
      ids.map (fun d => (d, !ids.any (fun did => getRec did st))) := by
  constructor
  · intro d hd
    exact toggleLoop_state_mem _ ids st d hd
  · exact toggleLoop_events _ ids st

/-- Witness for C1: with registry `[a, b]` and `b` currently recording,
the toggle sets both `a` and `b` to `false` and broadcasts exactly the
two events, in order. -/
theorem bulkToggle_or_not_broadcast_witness :
    lookupRec "a" (bulkToggle ["a", "b"] [("b", true)]).1 = some false ∧
    (bulkToggle ["a", "b"] [("b", true)]).2 = [("a", false), ("b", false)] := by
  have h := bulkToggle_or_not_broadcast ["a", "b"] [("b", true)]
  constructor
  · rw [h.1 "a" (by decide)]
    decide
  · rw [h.2]
    decide

/-- C10: the bulk toggle mutates recording state only for device ids
present in the device registry; a device id absent from the registry
keeps its recording-state entry unchanged and gets no broadcast event. -/
theorem bulkToggle_frame (ids : List String) (st : RecState) (d : String)
    (hd : d ∉ ids) :
    lookupRec d (bulkToggle ids st).1 = lookupRec d st ∧
    ∀ e ∈ (bulkToggle ids st).2, e.1 ≠ d := by
  constructor
  · exact toggleLoop_state_not_mem _ ids st d hd
  · intro e he
    simp only [bulkToggle, toggleLoop_events] at he
    obtain ⟨x, hx, hxe⟩ := List.mem_map.mp he
    subst hxe
    intro hcontra
    simp only at hcontra
    subst hcontra
    exact hd hx

/-- Witness for C10: device `z` has a recording-state entry but is not
registered; toggling registry `[a]` leaves `z`'s entry untouched and
broadcasts nothing about `z`. -/
theorem bulkToggle_frame_witness :
    lookupRec "z" (bulkToggle ["a"] [("z", true)]).1 = lookupRec "z" [("z", true)] ∧
    ∀ e ∈ (bulkToggle ["a"] [("z", true)]).2, e.1 ≠ "z" :=
  bulkToggle_frame ["a"] [("z", true)] "z" (by decide)

/-! ## Device registry

The global dict `active_devices : device_id → {last_seen, ip}` (line 45)
with `DEVICE_TIMEOUT_SECONDS = 10` (line 47), read with lazy eviction by
`handle_get_devices` (lines 299–324). -/

/-- Value stored in `active_devices`: last seen timestamp and client ip. -/
structure DevInfo where
  last_seen : ℚ
  ip : String
deriving DecidableEq

/-- Python dict `active_devices`, modelled as an association list. -/
abbrev Registry := List (String × DevInfo)

/-- Dict lookup `active_devices.get(d)`. -/
def lookupDev (d : String) : Registry → Option DevInfo
  | [] => none
  | (k, v) :: tl => if k = d then some v else lookupDev d tl

/-- Upsert from `handle_status` (lines 269–274):
`active_devices[device_id] = {'last_seen': now, 'ip': client_ip}`. -/
def touchDev (d : String) (t : ℚ) (ip : String) : Registry → Registry
  | [] => [(d, ⟨t, ip⟩)]
  | (k, v) :: tl => if k = d then (k, ⟨t, ip⟩) :: tl else (k, v) :: touchDev d t ip tl

/-- Eviction TTL (line 47). -/
def DEVICE_TIMEOUT_SECONDS : ℚ := 10

/-- Row of the `/devices` response (lines 310–315). -/
structure DeviceOut where
  device_id : String
  ip : String
  last_seen : ℚ
  seconds_ago : ℚ
deriving DecidableEq

/-- Loop of `handle_get_devices` (lines 304–318): keep each entry seen
within the timeout window, appending an output row for it; delete every
other entry from the dict. Returns the response rows and the surviving
registry. -/
def listActiveLoop (now : ℚ) : Registry → List DeviceOut × Registry
  | [] => ([], [])
  | (d, info) :: rest =>
    let stepped := listActiveLoop now rest
    if now - info.last_seen ≤ DEVICE_TIMEOUT_SECONDS then
      (⟨d, info.ip, info.last_seen, round1 (now - info.last_seen)⟩ :: stepped.1,
       (d, info) :: stepped.2)
    else stepped

/-- Handler `handle_get_devices`: the TTL-filtered device list, with
stale entries evicted as a side effect of the read. -/
def listActive (now : ℚ) (reg : Registry) : List DeviceOut × Registry :=
  listActiveLoop now reg

/-- Repeated `GET /devices` reads at successive times with no intervening
touch: threads the registry through `listActive`, collecting each
response. -/
def runListActive : Registry → List ℚ → List (List DeviceOut) × Registry
  | reg, [] => ([], reg)
  | reg, t :: ts =>
    let stepped := listActive t reg
    let rest := runListActive stepped.2 ts
    (stepped.1 :: rest.1, rest.2)

theorem lookupDev_eq_none_of_not_mem (d : String) (reg : Registry)
    (hd : d ∉ reg.map Prod.fst) : lookupDev d reg = none := by
  induction reg with
  | nil => rfl
  | cons kv tl ih =>
    obtain ⟨k, v⟩ := kv
    have hk : k ≠ d := fun h => hd (by simp [h])
    have htl : d ∉ tl.map Prod.fst := fun h => hd (by simp [h])
    simp [lookupDev, hk, ih htl]

theorem listActiveLoop_absent (now : ℚ) (reg : Registry) (d : String)
    (hd : lookupDev d reg = none) :
    (∀ o ∈ (listActiveLoop now reg).1, o.device_id ≠ d) ∧
    lookupDev d (listActiveLoop now reg).2 = none := by
  induction reg with
  | nil => simp [listActiveLoop, lookupDev]
  | cons kv tl ih =>
    obtain ⟨k, info⟩ := kv
    by_cases hk : k = d
    · simp [lookupDev, hk] at hd
    · simp only [lookupDev, if_neg hk] at hd
      obtain ⟨ho, hr⟩ := ih hd
      simp only [listActiveLoop]
      by_cases hc : now - info.last_seen ≤ DEVICE_TIMEOUT_SECONDS
      · refine ⟨?_, ?_⟩
        · intro o hmem
          rw [if_pos hc] at hmem
          rcases List.mem_cons.mp hmem with h1 | h2
          · subst h1; exact hk
          · exact ho o h2
        · rw [if_pos hc]
          simp [lookupDev, hk, hr]
      · rw [if_neg hc]
        exact ⟨ho, hr⟩

theorem runListActive_absent (ts : List ℚ) (reg : Registry) (d : String)
    (hd : lookupDev d reg = none) :
    (∀ out ∈ (runListActive reg ts).1, ∀ o ∈ out, o.device_id ≠ d) ∧
    lookupDev d (runListActive reg ts).2 = none := by
  induction ts generalizing reg with
  | nil => exact ⟨by simp [runListActive], by simpa [runListActive] using hd⟩
  | cons t ts ih =>
    obtain ⟨ho, hr⟩ := listActiveLoop_absent t reg d hd
    obtain ⟨ho2, hr2⟩ := ih (listActive t reg).2 hr
    refine ⟨?_, hr2⟩
    intro out hout
    simp only [runListActive] at hout
    rcases List.mem_cons.mp hout with h1 | h2
    · subst h1; exact ho
    · exact ho2 out h2

/-- C7: a device whose last touch is more than 10 seconds before `now` is
absent from the `/devices` response, is deleted from `active_devices` as
a side effect of that read, and does not reappear in any later
`/devices` response without a new touch. -/
theorem listActive_evicts_stale (reg : Registry) (d : String) (info : DevInfo)
    (now : ℚ) (hnodup : (reg.map Prod.fst).Nodup)
    (hd : lookupDev d reg = some info)
    (hstale : DEVICE_TIMEOUT_SECONDS < now - info.last_seen) :
    (∀ o ∈ (listActive now reg).1, o.device_id ≠ d) ∧
    lookupDev d (listActive now reg).2 = none ∧
    ∀ ts : List ℚ,
      ∀ out ∈ (runListActive (listActive now reg).2 ts).1, ∀ o ∈ out, o.device_id ≠ d := by
  have key : (∀ o ∈ (listActive now reg).1, o.device_id ≠ d) ∧
      lookupDev d (listActive now reg).2 = none := by
    induction reg with
    | nil => simp [lookupDev] at hd
    | cons kv tl ih =>
      obtain ⟨k, i⟩ := kv
      have hpair : k ∉ tl.map Prod.fst ∧ (tl.map Prod.fst).Nodup := by
        rw [List.map_cons, List.nodup_cons] at hnodup
        exact hnodup
      by_cases hk : k = d
      · subst hk
        simp only [lookupDev, if_true] at hd
        replace hd : i = info := by simpa using hd
        subst hd
        have htlnone := lookupDev_eq_none_of_not_mem k tl hpair.1
        have habs := listActiveLoop_absent now tl k htlnone
        simp only [listActive, listActiveLoop]
        rw [if_neg (not_le.mpr hstale)]
        exact habs
      · simp only [lookupDev, if_neg hk] at hd
        obtain ⟨ho, hr⟩ := ih hpair.2 hd
        simp only [listActive] at ho hr
        simp only [listActive, listActiveLoop]
        by_cases hc : now - i.last_seen ≤ DEVICE_TIMEOUT_SECONDS
        · rw [if_pos hc]
          refine ⟨?_, ?_⟩
          · intro o hmem
            rcases List.mem_cons.mp hmem with h1 | h2
            · subst h1; simpa using hk
            · exact ho o h2
          · simp [lookupDev, hk, hr]
        · rw [if_neg hc]
          exact ⟨ho, hr⟩
  exact ⟨key.1, key.2, fun ts => (runListActive_absent ts _ d key.2).1⟩

/-- Witness for C7: device `a` last touched at time 0 is evicted by a
`/devices` read at time 11. -/
theorem listActive_evicts_stale_witness :
    lookupDev "a" (listActive 11 [("a", ⟨0, "ip"⟩)]).2 = none :=
  (listActive_evicts_stale [("a", ⟨0, "ip"⟩)] "a" ⟨0, "ip"⟩ 11 (by simp) rfl
    (by norm_num [DEVICE_TIMEOUT_SECONDS])).2.1

/-! ## Ingestion queue

`transcription_queue` (line 55) is an in-process FIFO of pending jobs.
`handle_audio` (lines 604–698) parses query parameters and quality-hint
headers, acknowledges the upload, and appends one job — but only when the
body is non-empty (line 689). It never consults `recording_state`. -/

/-- Device-reported quality hints parsed from the `X-Audio-*` headers
(lines 643–669); each field is present only when its header was sent. -/
structure QualityHints where
  avg_db : Option PyFloat
  max_db : Option PyFloat
  min_db : Option PyFloat
  clip_count : Option Int
  silence_chunks : Option Int
  i2s_errors : Option Int
  total_chunks : Option Int
deriving DecidableEq

/-- Hints dict with no key set. -/
def QualityHints.empty : QualityHints := ⟨none, none, none, none, none, none, none⟩

/-- Python truthiness of the hints dict: true iff some key is present. -/
def QualityHints.nonEmpty (h : QualityHints) : Bool :=
  h.avg_db.isSome || h.max_db.isSome || h.min_db.isSome || h.clip_count.isSome ||
    h.silence_chunks.isSome || h.i2s_errors.isSome || h.total_chunks.isSome

/-- Item appended to `transcription_queue` (lines 691–698). -/
structure QueueItem where
  audio_data : List Nat
  device_id : String
  sample_rate : Int
  bits_per_sample : Nat
  channels : Int
  audio_quality : QualityHints
deriving DecidableEq

/-- Enqueue step of `handle_audio` (lines 688–698): one job is appended
iff the received body is non-empty. The handler never reads
`recording_state`, which is why the recording state is not an argument. -/
def handle_audio_enqueue (audio_data : List Nat) (device_id : String)
    (sample_rate : Int) (bits_per_sample : Nat) (channels : Int)
    (audio_quality : QualityHints) (queue : List QueueItem) : List QueueItem :=
  if audio_data.length > 0 then
    queue ++ [⟨audio_data, device_id, sample_rate, bits_per_sample, channels, audio_quality⟩]
  else
    queue

/-- Counterexample to C2 as stated: a POST whose body is empty appends
nothing to the queue, so "every POST appends exactly one queue item" is
false. -/
theorem handle_audio_empty_body_counterexample :
    handle_audio_enqueue [] "dev" 16000 16 1 QualityHints.empty [] = [] ∧
    ([] : List QueueItem).length + 1 ≠
      (handle_audio_enqueue [] "dev" 16000 16 1 QualityHints.empty []).length := by
  constructor
  · rfl
  · intro h
    simp [handle_audio_enqueue] at h

/-- C2 (amended): for every POST with a non-empty body, independently of
any recording state, exactly one queue item carrying the received audio
bytes, device id, format parameters and quality hints is appended at the
back of the ingestion queue; a POST with an empty body appends nothing. -/
theorem handle_audio_enqueue_spec (audio_data : List Nat) (device_id : String)
    (sample_rate : Int) (bits_per_sample : Nat) (channels : Int)
    (audio_quality : QualityHints) (queue : List QueueItem)
    (hne : audio_data ≠ []) :
    handle_audio_enqueue audio_data device_id sample_rate bits_per_sample channels
        audio_quality queue =
      queue ++ [⟨audio_data, device_id, sample_rate, bits_per_sample, channels,
        audio_quality⟩] := by
  have hlen : audio_data.length > 0 := List.length_pos.mpr hne
  simp [handle_audio_enqueue, hlen]

/-- Witness for C2 (amended): a one-byte upload is enqueued as the single
new tail item. -/
theorem handle_audio_enqueue_spec_witness :
    handle_audio_enqueue [7] "dev" 16000 16 1 QualityHints.empty [] =
      [⟨[7], "dev", 16000, 16, 1, QualityHints.empty⟩] :=
  handle_audio_enqueue_spec [7] "dev" 16000 16 1 QualityHints.empty [] (by decide)

/-! ## Audio quality analyzer

`analyze_audio_quality(pcm_data, sample_rate, channels, bits_per_sample)`
(lines 932–1037). Bytes are naturals below 256; samples are exact
integers; the mean, RMS and percentage arithmetic is modelled in exact
rationals. Since `rms = sqrt(ac_sum_squares / n)` is irrational, the
model carries `rms_sq = rms^2` and expresses every comparison involving
`rms` or `db_level` through it. -/

/-- Decode one signed 8-bit sample (struct format `b`). -/
def toSigned8 (b : Nat) : Int := if b < 128 then (b : Int) else (b : Int) - 256

/-- Decode one little-endian signed 16-bit sample (struct format `<h`)
from its low and high byte. -/
def toSigned16 (lo hi : Nat) : Int :=
  let v := lo + 256 * hi
  if v < 32768 then (v : Int) else (v : Int) - 65536

/-- The analyzer loop strides over whole 1-byte samples. -/
def decode8 (bs : List Nat) : List Int := bs.map toSigned8

/-- The analyzer loop strides over whole 2-byte samples, discarding a
trailing odd byte (`range(0, len - 2 + 1, 2)`). -/
def decode16 : List Nat → List Int
  | lo :: hi :: rest => toSigned16 lo hi :: decode16 rest
  | _ => []

/-- Accumulators of the analyzer loop (lines 948–952). -/
structure ScanState where
  sum_squares : Int
  clip_count : Nat
  zero_samples : Nat
  max_val : Int
  min_val : Int
deriving DecidableEq

/-- One iteration of the analyzer loop (lines 967–984). The five updates
each read only the previous iteration's accumulators, so they are written
as one parallel record construction:
`sum_squares += s*s`; `if s == 0: zero_samples += 1`;
`if abs(s) > abs(max_val): max_val = s`;
`if abs(s) < abs(min_val) or min_val == 0: min_val = s`;
`if abs(s) >= max_amplitude * 0.95: clip_count += 1`. -/
def scanStep (max_amplitude : Int) (st : ScanState) (s : Int) : ScanState :=
  { sum_squares := st.sum_squares + s * s,
    clip_count :=
      if (s.natAbs : ℚ) ≥ (max_amplitude : ℚ) * (19 / 20) then st.clip_count + 1
      else st.clip_count,
    zero_samples := if s = 0 then st.zero_samples + 1 else st.zero_samples,
    max_val := if |s| > |st.max_val| then s else st.max_val,
    min_val := if |s| < |st.min_val| ∨ st.min_val = 0 then s else st.min_val }

/-- The analyzer loop over all decoded samples, accumulators starting at
zero (lines 948–952). -/
def runScan (max_amplitude : Int) (samples : List Int) : ScanState :=
  samples.foldl (scanStep max_amplitude) ⟨0, 0, 0, 0, 0⟩

/-- The six issue messages of lines 1008–1020, in appending order. -/
inductive IssueKind where
  | largeDcOffset : IssueKind
  | narrowSampleRange : IssueKind
  | highZeroSamples : IssueKind
  | clippingDetected : IssueKind
  | veryQuietAudio : IssueKind
  | veryShortAudio : IssueKind
deriving DecidableEq

/-- The statistics dict returned on success (lines 1022–1037). `rms_sq`
models the square of `rms` (stored before its `round(.., 2)`); `rms` and
`db_level` themselves are irrational and no claim reads them, while every
threshold on them is expressed through `rms_sq`. -/
structure AnalysisStats where
  num_samples : Nat
  duration_sec : ℚ
  rms_sq : ℚ
  dc_offset : ℚ
  sample_range : Int
  max_amplitude : Int
  min_amplitude : Int
  zero_samples : Nat
  zero_percentage : ℚ
  clip_count : Nat
  clip_percentage : ℚ
  issues : List IssueKind
  data_integrity_good : Bool
deriving DecidableEq

/-- Result of the analyzer: one of the error dicts, a Python exception
(modelled as `crash`), or the statistics dict. -/
inductive AnalyzeResult where
  | errEmpty : AnalyzeResult
  | errNoSamples : AnalyzeResult
  | errNoValidSamples : AnalyzeResult
  | errUnsupportedBitDepth : AnalyzeResult
  | crash : AnalyzeResult
  | ok : AnalysisStats → AnalyzeResult
deriving DecidableEq

/-- Statistics phase of the analyzer after decoding (lines 988–1037).
`crash` when `sample_rate` is zero: `duration_sec = len(samples) /
sample_rate` raises ZeroDivisionError. The quiet-audio test
`db_level < -40` with `db_level = 20*log10(rms/max_amplitude)` (or
`-100.0` when `rms == 0`, also `< -40`) holds iff
`rms_sq * 10^4 < max_amplitude^2`, since `log10` is strictly monotone. -/
def analyzeCore (samples : List Int) (max_amplitude : Int) (sample_rate : Int) :
    AnalyzeResult :=
  if samples = [] then .errNoValidSamples
  else if sample_rate = 0 then .crash
  else
    let st := runScan max_amplitude samples
    let n : ℚ := samples.length
    let dc_offset : ℚ := (samples.sum : ℚ) / n
    let ac_sum_squares : ℚ := (samples.map (fun s => ((s : ℚ) - dc_offset) ^ 2)).sum
    let rms_sq : ℚ := ac_sum_squares / n
    let zero_percentage : ℚ := (st.zero_samples : ℚ) / n * 100
    let clip_percentage : ℚ := (st.clip_count : ℚ) / n * 100
    let sample_range : Int := st.max_val - st.min_val
    let issues : List IssueKind :=
      (if |dc_offset| > (max_amplitude : ℚ) * (1 / 10) then [.largeDcOffset] else []) ++
      (if sample_range < 100 then [.narrowSampleRange] else []) ++
      (if zero_percentage > 50 then [.highZeroSamples] else []) ++
      (if clip_percentage > 1 then [.clippingDetected] else []) ++
      (if rms_sq * 10000 < (max_amplitude : ℚ) ^ 2 then [.veryQuietAudio] else []) ++
      (if (samples.length : ℚ) < (sample_rate : ℚ) * (1 / 10) then [.veryShortAudio] else [])
    .ok
      { num_samples := samples.length,
        duration_sec := (samples.length : ℚ) / (sample_rate : ℚ),
        rms_sq := rms_sq,
        dc_offset := round1 dc_offset,
        sample_range := sample_range,
        max_amplitude := st.max_val,
        min_amplitude := st.min_val,
        zero_samples := st.zero_samples,
        zero_percentage := round1 zero_percentage,
        clip_count := st.clip_count,
        clip_percentage := round1 clip_percentage,
        issues := issues,
        data_integrity_good := issues.length = 0 }

/-- Entry of the analyzer (lines 937–964): empty-input check, then
`bytes_per_sample = bits_per_sample // 8` — whose use in
`num_samples = len(pcm_data) // bytes_per_sample` raises
ZeroDivisionError when `bits_per_sample < 8` — then the
`num_samples == 0` check, then the bit-depth dispatch. -/
def analyze_audio_quality (pcm_data : List Nat) (sample_rate : Int) (channels : Int)
    (bits_per_sample : Nat) : AnalyzeResult :=
  if pcm_data.length = 0 then .errEmpty
  else
    let bytes_per_sample := bits_per_sample / 8
    if bytes_per_sample = 0 then .crash
    else if pcm_data.length / bytes_per_sample = 0 then .errNoSamples
    else if bits_per_sample = 16 then analyzeCore (decode16 pcm_data) 32767 sample_rate
    else if bits_per_sample = 8 then analyzeCore (decode8 pcm_data) 127 sample_rate
    else .errUnsupportedBitDepth

/-- Samples the analyzer decodes for a given bit depth. -/
def decodedSamples (pcm_data : List Nat) (bits_per_sample : Nat) : List Int :=
  if bits_per_sample = 16 then decode16 pcm_data
  else if bits_per_sample = 8 then decode8 pcm_data
  else []

/-- Running sign-aware absolute maximum of the analyzer loop in
isolation: `if abs(sample) > abs(max_val): max_val = sample`, from 0. -/
def runMaxVal (samples : List Int) : Int :=
  samples.foldl (fun m s => if |s| > |m| then s else m) 0

/-- Running `min_val` tracker of the analyzer loop in isolation:
`if abs(sample) < abs(min_val) or min_val == 0: min_val = sample`,
from 0. -/
def runMinVal (samples : List Int) : Int :=
  samples.foldl (fun m s => if |s| < |m| ∨ m = 0 then s else m) 0

/-- Modelled from the spec words of §4.1, for comparison with the code:
"`sample_range = max(|sample|) - min(|sample|)` across observed
extrema". -/
def spec_sample_range (samples : List Int) : Option Int :=
  match samples.map (fun s => (s.natAbs : Int)) with
  | [] => none
  | a :: rest => some (rest.foldl max a - rest.foldl min a)

/-- Projection used to state facts about the `sample_range` field of a
successful analysis. -/
def sampleRangeOf : AnalyzeResult → Option Int
  | .ok stats => some stats.sample_range
  | _ => none

theorem foldl_scanStep_max (amp : Int) (samples : List Int) :
    ∀ st : ScanState, (samples.foldl (scanStep amp) st).max_val =
      samples.foldl (fun m s => if |s| > |m| then s else m) st.max_val := by
  induction samples with
  | nil => intro st; rfl
  | cons s tl ih =>
    intro st
    simpa [List.foldl, scanStep] using ih (scanStep amp st s)

theorem foldl_scanStep_min (amp : Int) (samples : List Int) :
    ∀ st : ScanState, (samples.foldl (scanStep amp) st).min_val =
      samples.foldl (fun m s => if |s| < |m| ∨ m = 0 then s else m) st.min_val := by
  induction samples with
  | nil => intro st; rfl
  | cons s tl ih =>
    intro st
    simpa [List.foldl, scanStep] using ih (scanStep amp st s)

theorem natAbs_runMaxVal_aux (samples : List Int) :
    ∀ m : Int, (samples.foldl (fun m s => if |s| > |m| then s else m) m).natAbs =
      (samples.map Int.natAbs).foldl max m.natAbs := by
  induction samples with
  | nil => intro m; rfl
  | cons s tl ih =>
    intro m
    have hstep : (if |s| > |m| then s else m).natAbs = max m.natAbs s.natAbs := by
      rw [Int.abs_eq_natAbs, Int.abs_eq_natAbs]
      by_cases h : (s.natAbs : Int) > (m.natAbs : Int)
      · rw [if_pos h]
        omega
      · rw [if_neg h]
        omega
    simpa [List.foldl, hstep] using ih (if |s| > |m| then s else m)

/-- Absolute value of the running sign-aware maximum is the maximum of
the absolute sample values. -/
theorem natAbs_runMaxVal (samples : List Int) :
    (runMaxVal samples).natAbs = (samples.map Int.natAbs).foldl max 0 := by
  simpa using natAbs_runMaxVal_aux samples 0

theorem analyzeCore_sample_range (samples : List Int) (amp rate : Int)
    (stats : AnalysisStats) (h : analyzeCore samples amp rate = .ok stats) :
    stats.sample_range = runMaxVal samples - runMinVal samples := by
  by_cases hs : samples = []
  · simp [analyzeCore, hs] at h
  · by_cases hr : rate = 0
    · simp [analyzeCore, hs, hr] at h
    · simp only [analyzeCore, if_neg hs, if_neg hr, AnalyzeResult.ok.injEq] at h
      subst h
      simp only [runScan, runMaxVal, runMinVal]
      rw [foldl_scanStep_max, foldl_scanStep_min]

theorem analyze_ok_sample_range (pcm_data : List Nat) (sample_rate channels : Int)
    (bits_per_sample : Nat) (stats : AnalysisStats)
    (h : analyze_audio_quality pcm_data sample_rate channels bits_per_sample = .ok stats) :
    stats.sample_range = runMaxVal (decodedSamples pcm_data bits_per_sample) -
        runMinVal (decodedSamples pcm_data bits_per_sample) := by
  by_cases hlen : pcm_data.length = 0
  · simp [analyze_audio_quality, hlen] at h
  · by_cases hbps : bits_per_sample / 8 = 0
    · simp [analyze_audio_quality, hlen, hbps] at h
    · by_cases hnum : pcm_data.length / (bits_per_sample / 8) = 0
      · simp [analyze_audio_quality, hlen, hbps, hnum] at h
      · by_cases h16 : bits_per_sample = 16
        · simp only [analyze_audio_quality, if_neg hlen, if_neg hbps, if_neg hnum,
            if_pos h16] at h
          simpa [decodedSamples, h16] using analyzeCore_sample_range _ _ _ _ h
        · by_cases h8 : bits_per_sample = 8
          · simp only [analyze_audio_quality, if_neg hlen, if_neg hbps, if_neg hnum,
              if_neg h16, if_pos h8] at h
            simpa [decodedSamples, h16, h8] using analyzeCore_sample_range _ _ _ _ h
          · simp [analyze_audio_quality, hlen, hbps, hnum, h16, h8] at h

/-- C3 (amended): on every successful analysis, `sample_range` is
`max_val - min_val` for the loop's sign-aware running trackers — signed
values, where `|max_val|` is the maximum absolute sample value but
`min_val` keeps its sign and is retracked whenever it is zero — which in
general differs from `max(|sample|) - min(|sample|)`. -/
theorem analyze_sample_range_signed (pcm_data : List Nat) (sample_rate channels : Int)
    (bits_per_sample : Nat)
    (h : sampleRangeOf (analyze_audio_quality pcm_data sample_rate channels bits_per_sample) ≠
      none) :
    sampleRangeOf (analyze_audio_quality pcm_data sample_rate channels bits_per_sample) =
      some (runMaxVal (decodedSamples pcm_data bits_per_sample) -
        runMinVal (decodedSamples pcm_data bits_per_sample)) ∧
    (runMaxVal (decodedSamples pcm_data bits_per_sample)).natAbs =
      ((decodedSamples pcm_data bits_per_sample).map Int.natAbs).foldl max 0 := by
  refine ⟨?_, natAbs_runMaxVal _⟩
  cases hres : analyze_audio_quality pcm_data sample_rate channels bits_per_sample with
  | ok stats =>
    simp only [sampleRangeOf, Option.some.injEq]
    exact analyze_ok_sample_range pcm_data sample_rate channels bits_per_sample stats hres
  | errEmpty => rw [hres] at h; simp [sampleRangeOf] at h
  | errNoSamples => rw [hres] at h; simp [sampleRangeOf] at h
  | errNoValidSamples => rw [hres] at h; simp [sampleRangeOf] at h
  | errUnsupportedBitDepth => rw [hres] at h; simp [sampleRangeOf] at h
  | crash => rw [hres] at h; simp [sampleRangeOf] at h

/-- Witness for C3 (amended), at the two 8-bit samples `[-5, 2]`. -/
theorem analyze_sample_range_signed_witness :
    sampleRangeOf (analyze_audio_quality [251, 2] 16000 1 8) =
      some (runMaxVal (decodedSamples [251, 2] 8) - runMinVal (decodedSamples [251, 2] 8)) :=
  (analyze_sample_range_signed [251, 2] 16000 1 8 (by decide)).1

/-- Counterexample to C3 as stated: the 8-bit buffer decoding to samples
`[-5, 2]` has `max(|s|) - min(|s|) = 3`, but the analyzer reports
`sample_range = max_val - min_val = -5 - 2 = -7`, because `max_val` is
the signed sample of greatest magnitude. -/
theorem analyze_sample_range_counterexample :
    sampleRangeOf (analyze_audio_quality [251, 2] 16000 1 8) = some (-7) ∧
    spec_sample_range (decode8 [251, 2]) = some 3 ∧
    sampleRangeOf (analyze_audio_quality [251, 2] 16000 1 8) ≠
      spec_sample_range (decode8 [251, 2]) := by
  refine ⟨by decide, by decide, by decide⟩

/-- Counterexample to C4 as stated: with a non-empty one-byte buffer and
`bits_per_sample = 24`, the analyzer returns the no-samples error (the
`num_samples == 0` check precedes the bit-depth dispatch), and with
`bits_per_sample = 4` it raises ZeroDivisionError
(`bytes_per_sample = 4 // 8 = 0`); neither is the UnsupportedBitDepth
error the claim promises. -/
theorem analyze_unsupported_counterexample :
    analyze_audio_quality [0] 16000 1 24 = .errNoSamples ∧
    analyze_audio_quality [0] 16000 1 4 = .crash ∧
    AnalyzeResult.errNoSamples ≠ .errUnsupportedBitDepth ∧
    AnalyzeResult.crash ≠ .errUnsupportedBitDepth := by
  decide

/-- C4 (amended): for a non-empty PCM buffer, a bit depth other than 8
and 16 yields the UnsupportedBitDepth error only when the depth is at
least 8 and the buffer holds at least one full sample
(`bits_per_sample // 8` bytes); a depth below 8 instead raises
ZeroDivisionError, and a buffer shorter than one sample instead yields
the no-samples error. -/
theorem analyze_unsupported_amended (pcm_data : List Nat) (sample_rate channels : Int)
    (bits_per_sample : Nat) (hne : pcm_data ≠ []) :
    (8 ≤ bits_per_sample → bits_per_sample ≠ 8 → bits_per_sample ≠ 16 →
      bits_per_sample / 8 ≤ pcm_data.length →
      analyze_audio_quality pcm_data sample_rate channels bits_per_sample =
        .errUnsupportedBitDepth) ∧
    (bits_per_sample < 8 →
      analyze_audio_quality pcm_data sample_rate channels bits_per_sample = .crash) ∧
    (8 ≤ bits_per_sample → pcm_data.length < bits_per_sample / 8 →
      analyze_audio_quality pcm_data sample_rate channels bits_per_sample =
        .errNoSamples) := by
  have hlen : ¬pcm_data.length = 0 := fun h => hne (List.length_eq_zero.mp h)
  refine ⟨?_, ?_, ?_⟩
  · intro hge h8 h16 hfit
    have hbps : ¬bits_per_sample / 8 = 0 := by
      have : 1 ≤ bits_per_sample / 8 := (Nat.one_le_div_iff (by norm_num)).mpr hge
      omega
    have hnum : ¬pcm_data.length / (bits_per_sample / 8) = 0 := by
      have : 1 ≤ pcm_data.length / (bits_per_sample / 8) :=
        (Nat.one_le_div_iff (by omega)).mpr hfit
      omega
    simp [analyze_audio_quality, hlen, hbps, hnum, h16, h8]
  · intro hlt
    have hbps : bits_per_sample / 8 = 0 := Nat.div_eq_of_lt hlt
    simp [analyze_audio_quality, hlen, hbps]
  · intro hge hshort
    have hbps : ¬bits_per_sample / 8 = 0 := by
      have : 1 ≤ bits_per_sample / 8 := (Nat.one_le_div_iff (by norm_num)).mpr hge
      omega
    have hnum : pcm_data.length / (bits_per_sample / 8) = 0 := Nat.div_eq_of_lt hshort
    simp [analyze_audio_quality, hlen, hbps, hnum]

/-- Witness for C4 (amended): three zero bytes at 24 bits per sample
yield the UnsupportedBitDepth error. -/
theorem analyze_unsupported_amended_witness :
    analyze_audio_quality [0, 0, 0] 16000 1 24 = .errUnsupportedBitDepth :=
  (analyze_unsupported_amended [0, 0, 0] 16000 1 24 (by decide)).1
    (by decide) (by decide) (by decide) (by decide)

/-! ## JSON sanitizer

`clean_json_data(data)` (lines 917–929) recursively replaces every
non-finite float in a nested dict/list/scalar payload with `None`. The
payload universe is modelled as a mutual inductive: a value, a list of
values, and a dict of string-keyed values. -/

mutual
/-- A Python value reachable by `clean_json_data`: scalars, lists and
string-keyed dicts. -/
inductive JVal where
  | null : JVal
  | boolV : Bool → JVal
  | intV : Int → JVal
  | strV : String → JVal
  | floatV : PyFloat → JVal
  | arr : JArr → JVal
  | dict : JObj → JVal
/-- A Python list of `JVal`s. -/
inductive JArr where
  | nil : JArr
  | cons : JVal → JArr → JArr
/-- A Python dict of string-keyed `JVal`s, in insertion order. -/
inductive JObj where
  | nil : JObj
  | cons : String → JVal → JObj → JObj
end

mutual
/-- Python `clean_json_data` (lines 917–929): dicts and lists are
rebuilt with cleaned members, a float is kept iff it is finite and
replaced by `None` otherwise, and every other value passes through. -/
def clean_json_data : JVal → JVal
  | .dict kvs => .dict (cleanObj kvs)
  | .arr xs => .arr (cleanArr xs)
  | .floatV f => if f.isFinite then .floatV f else .null
  | .null => .null
  | .boolV b => .boolV b
  | .intV n => .intV n
  | .strV s => .strV s
/-- The `[clean_json_data(item) for item in data]` comprehension. -/
def cleanArr : JArr → JArr
  | .nil => .nil
  | .cons x xs => .cons (clean_json_data x) (cleanArr xs)
/-- The `{k: clean_json_data(v) for k, v in data.items()}` comprehension. -/
def cleanObj : JObj → JObj
  | .nil => .nil
  | .cons k v kvs => .cons k (clean_json_data v) (cleanObj kvs)
end

mutual
/-- Whether a NaN or infinite float occurs anywhere in the value. -/
def hasNonFinite : JVal → Bool
  | .dict kvs => hasNonFiniteObj kvs
  | .arr xs => hasNonFiniteArr xs
  | .floatV f => !f.isFinite
  | .null => false
  | .boolV _ => false
  | .intV _ => false
  | .strV _ => false
/-- Whether a NaN or infinite float occurs anywhere in the list. -/
def hasNonFiniteArr : JArr → Bool
  | .nil => false
  | .cons x xs => hasNonFinite x || hasNonFiniteArr xs
/-- Whether a NaN or infinite float occurs anywhere in the dict. -/
def hasNonFiniteObj : JObj → Bool
  | .nil => false
  | .cons _ v kvs => hasNonFinite v || hasNonFiniteObj kvs
end

mutual
theorem clean_json_data_idem : ∀ x : JVal,
    clean_json_data (clean_json_data x) = clean_json_data x
  | .null => rfl
  | .boolV _ => rfl
  | .intV _ => rfl
  | .strV _ => rfl
  | .floatV f => by cases f <;> rfl
  | .arr xs => by simp only [clean_json_data, cleanArr_idem xs]
  | .dict kvs => by simp only [clean_json_data, cleanObj_idem kvs]
theorem cleanArr_idem : ∀ xs : JArr, cleanArr (cleanArr xs) = cleanArr xs
  | .nil => rfl
  | .cons x xs => by simp only [cleanArr, clean_json_data_idem x, cleanArr_idem xs]
theorem cleanObj_idem : ∀ kvs : JObj, cleanObj (cleanObj kvs) = cleanObj kvs
  | .nil => rfl
  | .cons k v kvs => by simp only [cleanObj, clean_json_data_idem v, cleanObj_idem kvs]
end

mutual
theorem clean_json_data_no_nonfinite : ∀ x : JVal,
    hasNonFinite (clean_json_data x) = false
  | .null => rfl
  | .boolV _ => rfl
  | .intV _ => rfl
  | .strV _ => rfl
  | .floatV f => by cases f <;> rfl
  | .arr xs => by
      simp only [clean_json_data, hasNonFinite]
      exact cleanArr_no_nonfinite xs
  | .dict kvs => by
      simp only [clean_json_data, hasNonFinite]
      exact cleanObj_no_nonfinite kvs
theorem cleanArr_no_nonfinite : ∀ xs : JArr, hasNonFiniteArr (cleanArr xs) = false
  | .nil => rfl
  | .cons x xs => by
      simp only [cleanArr, hasNonFiniteArr, clean_json_data_no_nonfinite x,
        cleanArr_no_nonfinite xs, Bool.or_self]
theorem cleanObj_no_nonfinite : ∀ kvs : JObj, hasNonFiniteObj (cleanObj kvs) = false
  | .nil => rfl
  | .cons k v kvs => by
      simp only [cleanObj, hasNonFiniteObj, clean_json_data_no_nonfinite v,
        cleanObj_no_nonfinite kvs, Bool.or_self]
end

mutual
theorem clean_json_data_id_of_finite : ∀ x : JVal,
    hasNonFinite x = false → clean_json_data x = x
  | .null, _ => rfl
  | .boolV _, _ => rfl
  | .intV _, _ => rfl
  | .strV _, _ => rfl
  | .floatV f, h => by
      cases f with
      | val q => rfl
      | nan => simp [hasNonFinite, PyFloat.isFinite] at h
      | inf => simp [hasNonFinite, PyFloat.isFinite] at h
      | neginf => simp [hasNonFinite, PyFloat.isFinite] at h
  | .arr xs, h => by
      simp only [hasNonFinite] at h
      simp only [clean_json_data, cleanArr_id_of_finite xs h]
  | .dict kvs, h => by
      simp only [hasNonFinite] at h
      simp only [clean_json_data, cleanObj_id_of_finite kvs h]
theorem cleanArr_id_of_finite : ∀ xs : JArr, hasNonFiniteArr xs = false → cleanArr xs = xs
  | .nil, _ => rfl
  | .cons x xs, h => by
      rw [hasNonFiniteArr, Bool.or_eq_false_iff] at h
      simp only [cleanArr, clean_json_data_id_of_finite x h.1, cleanArr_id_of_finite xs h.2]
theorem cleanObj_id_of_finite : ∀ kvs : JObj, hasNonFiniteObj kvs = false → cleanObj kvs = kvs
  | .nil, _ => rfl
  | .cons k v kvs, h => by
      rw [hasNonFiniteObj, Bool.or_eq_false_iff] at h
      simp only [cleanObj, clean_json_data_id_of_finite v h.1, cleanObj_id_of_finite kvs h.2]
end

mutual
/-- Modelled from the spec words of §4.7: "recursively replace any
non-finite floating value with a null/absent marker, leaving structure
and all other values unchanged". `Sanitizes x y` relates a payload `x`
to its sanitized form `y` pointwise: `y` has exactly the structure of
`x`, each non-finite float leaf of `x` is `null` in `y`, and every
other leaf of `x` — finite floats included — is unchanged in place. -/
def Sanitizes : JVal → JVal → Prop
  | .floatV f, y => y = (if f.isFinite then .floatV f else .null)
  | .arr xs, .arr ys => SanitizesArr xs ys
  | .arr _, _ => False
  | .dict kvs, .dict kvs2 => SanitizesObj kvs kvs2
  | .dict _, _ => False
  | x, y => y = x
/-- Pointwise sanitization of a list: same length, members related in
order. -/
def SanitizesArr : JArr → JArr → Prop
  | .nil, .nil => True
  | .cons x xs, .cons y ys => Sanitizes x y ∧ SanitizesArr xs ys
  | _, _ => False
/-- Pointwise sanitization of a dict: same keys in the same order,
values related. -/
def SanitizesObj : JObj → JObj → Prop
  | .nil, .nil => True
  | .cons k v kvs, .cons k2 v2 kvs2 => k2 = k ∧ Sanitizes v v2 ∧ SanitizesObj kvs kvs2
  | _, _ => False
end

mutual
theorem clean_json_data_sanitizes : ∀ x : JVal, Sanitizes x (clean_json_data x)
  | .null => rfl
  | .boolV _ => rfl
  | .intV _ => rfl
  | .strV _ => rfl
  | .floatV f => by cases f <;> rfl
  | .arr xs => cleanArr_sanitizes xs
  | .dict kvs => cleanObj_sanitizes kvs
theorem cleanArr_sanitizes : ∀ xs : JArr, SanitizesArr xs (cleanArr xs)
  | .nil => trivial
  | .cons x xs => ⟨clean_json_data_sanitizes x, cleanArr_sanitizes xs⟩
theorem cleanObj_sanitizes : ∀ kvs : JObj, SanitizesObj kvs (cleanObj kvs)
  | .nil => trivial
  | .cons k v kvs => ⟨rfl, clean_json_data_sanitizes v, cleanObj_sanitizes kvs⟩
end

/-- C5: the sanitizer is idempotent; its output contains no NaN or
Infinity anywhere; for every payload — whether or not it contains
non-finite floats — the output has the structure of the input with every
non-finite float leaf replaced by `null` and every other value,
finite floats included, unchanged in place; and a payload containing no
non-finite value at all passes through identically. -/
theorem clean_json_data_spec (x : JVal) :
    clean_json_data (clean_json_data x) = clean_json_data x ∧
    hasNonFinite (clean_json_data x) = false ∧
    Sanitizes x (clean_json_data x) ∧
    (hasNonFinite x = false → clean_json_data x = x) :=
  ⟨clean_json_data_idem x, clean_json_data_no_nonfinite x,
    clean_json_data_sanitizes x, clean_json_data_id_of_finite x⟩

/-- Witness for C5: sanitizing the mixed payload `{"a": nan, "b": 3}`
yields a NaN-free payload that is its pointwise sanitization (keys and
the finite value kept, the NaN leaf nulled), and a finite payload
`[1.0]` is returned unchanged. -/
theorem clean_json_data_spec_witness :
    hasNonFinite (clean_json_data (JVal.dict (JObj.cons "a" (.floatV .nan)
      (JObj.cons "b" (.intV 3) .nil)))) = false ∧
    Sanitizes (JVal.dict (JObj.cons "a" (.floatV .nan) (JObj.cons "b" (.intV 3) .nil)))
      (clean_json_data (JVal.dict (JObj.cons "a" (.floatV .nan)
        (JObj.cons "b" (.intV 3) .nil)))) ∧
    clean_json_data (JVal.arr (JArr.cons (.floatV (.val 1)) .nil)) =
      JVal.arr (JArr.cons (.floatV (.val 1)) .nil) :=
  ⟨(clean_json_data_spec (JVal.dict (JObj.cons "a" (.floatV .nan)
      (JObj.cons "b" (.intV 3) .nil)))).2.1,
    (clean_json_data_spec (JVal.dict (JObj.cons "a" (.floatV .nan)
      (JObj.cons "b" (.intV 3) .nil)))).2.2.1,
    (clean_json_data_spec (JVal.arr (JArr.cons (.floatV (.val 1)) .nil))).2.2.2 rfl⟩

/-! ## DC offset corrector

`remove_dc_offset(pcm_data, bits_per_sample)` (lines 1040–1084): unpack,
subtract the truncated mean, run a first-order IIR high-pass filter,
clamp, repack. Unlike the analyzer's stride loop, its 16-bit
`struct.unpack` demands the buffer length be an exact multiple of 2 and
raises struct.error otherwise, modelled as `none`. -/

/-- Python `int()` applied to an exact value: truncation toward zero. -/
def truncQ (q : ℚ) : Int := if 0 ≤ q then ⌊q⌋ else ⌈q⌉

/-- Re-encode one clamped signed 8-bit sample into its byte. -/
def encode8 (s : Int) : Nat := (s % 256).toNat

/-- Re-encode one clamped signed 16-bit sample into little-endian bytes. -/
def encode16 (s : Int) : List Nat := [(s % 65536 % 256).toNat, (s % 65536 / 256).toNat]

/-- Loop of the IIR high-pass filter (lines 1073–1074):
`filtered[i] = int(corrected[i] - corrected[i-1] + alpha *
filtered[i-1])` with `alpha = 0.95`; arguments are the previous input
sample, the previous output sample, and the remaining input. -/
def iirLoop : Int → Int → List Int → List Int
  | _, _, [] => []
  | px, py, x :: xs =>
    let y := truncQ ((x : ℚ) - (px : ℚ) + 19 / 20 * (py : ℚ))
    y :: iirLoop x y xs

/-- Mean removal and high-pass filtering (lines 1060–1074):
`corrected[i] = int(samples[i] - dc_offset)` with
`dc_offset = sum(samples)/len(samples)`, then the IIR filter with
`filtered[0] = corrected[0]`. -/
def dcCorrect (samples : List Int) : List Int :=
  let dc_offset : ℚ := (samples.sum : ℚ) / (samples.length : ℚ)
  let corrected := samples.map (fun s => truncQ ((s : ℚ) - dc_offset))
  match corrected with
  | [] => []
  | c0 :: rest => c0 :: iirLoop c0 c0 rest

/-- Python `remove_dc_offset`: empty input returns unchanged (line
1045); 16-bit input is unpacked (struct.error — `none` — on odd length),
8-bit is unpacked bytewise; other depths return the input unchanged
(line 1055); decoded samples are mean-corrected, filtered, clamped to
the valid range of the depth and repacked. -/
def remove_dc_offset (pcm_data : List Nat) (bits_per_sample : Nat) : Option (List Nat) :=
  if pcm_data.length = 0 then some pcm_data
  else if bits_per_sample = 16 then
    if pcm_data.length % 2 = 0 then
      let samples := decode16 pcm_data
      if samples.length = 0 then some pcm_data
      else
        some ((((dcCorrect samples).map (fun s => max (-32768) (min 32767 s))).map
          encode16).flatten)
    else none
  else if bits_per_sample = 8 then
    let samples := decode8 pcm_data
    if samples.length = 0 then some pcm_data
    else some (((dcCorrect samples).map (fun s => max (-128) (min 127 s))).map encode8)
  else some pcm_data

/-- C9: the DC offset corrector returns its input byte-for-byte
unchanged and signals no error, both for an empty buffer (at any bit
depth) and for any buffer at a bit depth other than 8 and 16. -/
theorem remove_dc_offset_passthrough (pcm_data : List Nat) (bits_per_sample : Nat) :
    (pcm_data = [] → remove_dc_offset pcm_data bits_per_sample = some pcm_data) ∧
    (bits_per_sample ≠ 8 → bits_per_sample ≠ 16 →
      remove_dc_offset pcm_data bits_per_sample = some pcm_data) := by
  constructor
  · intro h
    subst h
    rfl
  · intro h8 h16
    by_cases hlen : pcm_data.length = 0
    · simp [remove_dc_offset, hlen]
    · simp [remove_dc_offset, hlen, h8, h16]

/-- Witness for C9: a 3-byte buffer at 24 bits per sample passes through
unchanged, and the empty buffer at 16 bits passes through unchanged. -/
theorem remove_dc_offset_passthrough_witness :
    remove_dc_offset [1, 2, 3] 24 = some [1, 2, 3] ∧
    remove_dc_offset [] 16 = some [] :=
  ⟨(remove_dc_offset_passthrough [1, 2, 3] 24).2 (by decide) (by decide),
    (remove_dc_offset_passthrough [] 16).1 rfl⟩

/-! ## Quality scorer

Lines 849–894 of `process_recording_standalone`: start at 100, subtract
penalties from the device-reported hints and from the server-side
analysis, clamp to [0,100], substitute 0.0 for a non-finite result, and
round to one decimal for storage. -/

/-- Subset of `audio_quality['server_analysis']` (attached at lines
804–811) that the scorer reads: `data_integrity`, `issues` and
`zero_percentage`. The attached `rms`, `db_level` and `clip_percentage`
are never read by the scorer. -/
structure ServerAnalysis where
  data_integrity_good : Bool
  issues : List IssueKind
  zero_percentage : ℚ
deriving DecidableEq

/-- Python truthiness of an optional integer hint: present and
non-zero, as in `if 'clip_count' in audio_quality and
audio_quality['clip_count']:`. -/
def truthyInt : Option Int → Bool
  | some n => decide (n ≠ 0)
  | none => false

/-- Penalty accumulation of lines 849–887, before clamping. -/
def rawQualityScore (aq : QualityHints) (sa : Option ServerAnalysis) : ℚ :=
  let qs : ℚ := 100
  let qs := if truthyInt aq.clip_count then
      qs - min ((aq.clip_count.getD 0 : ℚ) * 5) 30
    else qs
  let qs := match aq.silence_chunks, aq.total_chunks with
    | some silence, some total =>
      if total > 0 then
        let silence_pct : ℚ := (silence : ℚ) / (total : ℚ) * 100
        if silence_pct > 50 then qs - 20
        else if silence_pct > 30 then qs - 10
        else qs
      else qs
    | _, _ => qs
  let qs := if truthyInt aq.i2s_errors then
      qs - min ((aq.i2s_errors.getD 0 : ℚ) * 10) 40
    else qs
  let qs := match aq.avg_db with
    | some v => if v.ltQ (-30) then qs - 15 else if v.gtQ (-6) then qs - 10 else qs
    | none => qs
  match sa with
  | some s =>
    let qs := if !s.data_integrity_good then qs - 20 else qs
    let qs := if s.issues.length ≠ 0 then qs - (s.issues.length : ℚ) * 5 else qs
    if s.zero_percentage > 50 then qs - 15 else qs
  | none => qs

/-- Stored quality score (lines 889–894): clamp the accumulated score to
[0,100] with `max(0, min(100, qs))`, substitute `0.0` for NaN or
infinity — vacuous here, since in exact arithmetic every branch
subtracts a finite quantity — and store `round(float(qs), 1)`. -/
def computeQualityScore (aq : QualityHints) (sa : Option ServerAnalysis) : ℚ :=
  round1 (max 0 (min 100 (rawQualityScore aq sa)))

theorem round1_bounds (q : ℚ) (h0 : 0 ≤ q) (h100 : q ≤ 100) :
    0 ≤ round1 q ∧ round1 q ≤ 100 := by
  rw [round1, round_eq]
  constructor
  · have hfl : (0 : ℤ) ≤ ⌊10 * q + 1 / 2⌋ := Int.le_floor.mpr (by push_cast; linarith)
    exact div_nonneg (by exact_mod_cast hfl) (by norm_num)
  · have hlt : ⌊10 * q + 1 / 2⌋ < 1001 := Int.floor_lt.mpr (by push_cast; linarith)
    have hle : ⌊10 * q + 1 / 2⌋ ≤ 1000 := by omega
    rw [div_le_iff₀ (by norm_num)]
    have : ((⌊10 * q + 1 / 2⌋ : ℤ) : ℚ) ≤ ((1000 : ℤ) : ℚ) := by exact_mod_cast hle
    calc ((⌊10 * q + 1 / 2⌋ : ℤ) : ℚ) ≤ ((1000 : ℤ) : ℚ) := this
    _ = 100 * 10 := by norm_num

/-- C6: for every combination of device-reported hints and server
analysis, the stored quality score lies in [0,100]; in this exact model
it is a rational by construction, so it is in particular never NaN or an
infinity (the substitution branch of lines 891–893 never fires). -/
theorem computeQualityScore_bounds (aq : QualityHints) (sa : Option ServerAnalysis) :
    0 ≤ computeQualityScore aq sa ∧ computeQualityScore aq sa ≤ 100 := by
  rw [computeQualityScore]
  refine round1_bounds _ (le_max_left 0 _) (max_le (by norm_num) (min_le_left 100 _))

/-! ## Job processing and the transcription worker

`process_recording_standalone` (lines 752–914) saves the WAV (through
`save_wav_file`, lines 1087–1135, which analyzes and DC-corrects first),
invokes the external transcription capability, and persists and
broadcasts a transcript record only when transcription succeeded. The
worker loop (`transcription_worker`, lines 1159–1183) pops one item from
the queue front and processes it; a popped item is never re-enqueued. -/

/-- Projection of `AnalysisStats` onto the `server_analysis` dict the
scorer reads (lines 804–811). -/
def toServerAnalysis (stats : AnalysisStats) : ServerAnalysis :=
  { data_integrity_good := stats.data_integrity_good,
    issues := stats.issues,
    zero_percentage := stats.zero_percentage }

/-- Model of `save_wav_file` (lines 1087–1135) up to its externally
persisted WAV: analyze; if the reported (rounded) DC offset exceeds 10
in magnitude, run `remove_dc_offset` and re-analyze, keeping the updated
analysis when the re-analysis succeeded; return the analysis (or `none`
for an error dict) and the final PCM. The outer `none` models a
propagating Python exception (analyzer ZeroDivisionError or
struct.error in `remove_dc_offset`). -/
def save_wav_file_model (pcm_data : List Nat) (sample_rate channels : Int)
    (bits_per_sample : Nat) : Option (Option AnalysisStats × List Nat) :=
  match analyze_audio_quality pcm_data sample_rate channels bits_per_sample with
  | .crash => none
  | .ok stats =>
    if |stats.dc_offset| > 10 then
      match remove_dc_offset pcm_data bits_per_sample with
      | none => none
      | some pcm2 =>
        match analyze_audio_quality pcm2 sample_rate channels bits_per_sample with
        | .crash => none
        | .ok stats2 => some (some stats2, pcm2)
        | _ => some (some stats, pcm2)
    else some (some stats, pcm_data)
  | _ => some (none, pcm_data)

/-- Metadata record persisted and broadcast for a successful
transcription (lines 833–894). -/
structure TranscriptMeta where
  device_id : String
  duration : ℚ
  transcript : String
  sample_rate : Int
  bits_per_sample : Nat
  channels : Int
  quality_score : Option ℚ
deriving DecidableEq

/-- Observable persistence and broadcast effects of one processed job. -/
structure JobEffects where
  wav_saved : Bool
  txt_saved : Bool
  metadata : Option TranscriptMeta
  transcript_events : Nat
deriving DecidableEq

/-- Python truthiness of the transcription result at line 817
(`if transcript:`): `None` and the empty string are both falsy. -/
def transcriptTruthy : Option String → Bool
  | some s => decide (s ≠ "")
  | none => false

/-- Model of `process_recording_standalone` (lines 752–914). The
external transcription capability is passed in as its result. `none`
models a propagating exception: `duration = len / (rate * channels *
(bits // 8))` raises ZeroDivisionError on a zero denominator (line 757),
and `save_wav_file` may raise. On success (truthy transcript) the `.txt`
file, the metadata JSON — with a quality score iff the hints dict is
non-empty after attaching the server analysis — and one `transcript`
broadcast are produced; otherwise only the WAV persists. -/
def process_recording_standalone (item : QueueItem) (transcript : Option String) :
    Option JobEffects :=
  let denom : ℚ := (item.sample_rate : ℚ) * (item.channels : ℚ) *
    ((item.bits_per_sample / 8 : Nat) : ℚ)
  if denom = 0 then none
  else
    let duration : ℚ := (item.audio_data.length : ℚ) / denom
    match save_wav_file_model item.audio_data item.sample_rate item.channels
        item.bits_per_sample with
    | none => none
    | some (statsOpt, _) =>
      let sa := statsOpt.map toServerAnalysis
      if transcriptTruthy transcript then
        let hasQuality := item.audio_quality.nonEmpty || sa.isSome
        some
          { wav_saved := true,
            txt_saved := true,
            metadata := some
              { device_id := item.device_id,
                duration := duration,
                transcript := transcript.getD "",
                sample_rate := item.sample_rate,
                bits_per_sample := item.bits_per_sample,
                channels := item.channels,
                quality_score :=
                  if hasQuality then some (computeQualityScore item.audio_quality sa)
                  else none },
            transcript_events := 1 }
      else
        some
          { wav_saved := true, txt_saved := false, metadata := none,
            transcript_events := 0 }

/-- One iteration of `transcription_worker` (lines 1164–1183): pop the
queue front (or sleep when empty) and process the popped item. Returns
the remaining queue and `some` job outcome when an item was popped. -/
def transcription_worker_step (transcribe : QueueItem → Option String) :
    List QueueItem → List QueueItem × Option (Option JobEffects)
  | [] => ([], none)
  | item :: rest => (rest, some (process_recording_standalone item (transcribe item)))

/-- C8: when the external transcription capability fails — timeout,
non-zero exit or empty output, all of which surface as a falsy
transcript — the job completes without a transcript text file, metadata
record or transcript broadcast, while the WAV written earlier in the job
is retained, and the popped item is not re-enqueued. -/
theorem worker_failure_no_transcript (transcribe : QueueItem → Option String)
    (item : QueueItem) (rest : List QueueItem)
    (hfail : transcriptTruthy (transcribe item) = false) :
    (transcription_worker_step transcribe (item :: rest)).1 = rest ∧
    ∀ eff : JobEffects,
      (transcription_worker_step transcribe (item :: rest)).2 = some (some eff) →
      eff.wav_saved = true ∧ eff.txt_saved = false ∧ eff.metadata = none ∧
        eff.transcript_events = 0 := by
  refine ⟨rfl, ?_⟩
  intro eff heff
  simp only [transcription_worker_step, Option.some.injEq] at heff
  simp only [process_recording_standalone, hfail, Bool.false_eq_true, if_false] at heff
  split at heff
  · exact absurd heff (by simp)
  · split at heff
    · exact absurd heff (by simp)
    · rw [Option.some.injEq] at heff
      subst heff
      exact ⟨rfl, rfl, rfl, rfl⟩

/-- Witness for C8: a worker step on a one-item queue whose transcription
returns `None` leaves the empty queue behind. -/
theorem worker_failure_no_transcript_witness :
    (transcription_worker_step (fun _ => none)
      [⟨[0, 0], "dev", 16000, 16, 1, QualityHints.empty⟩]).1 = [] :=
  (worker_failure_no_transcript (fun _ => none)
    ⟨[0, 0], "dev", 16000, 16, 1, QualityHints.empty⟩ [] rfl).1

end MemoEsp
